import Mathlib

/-!
Verification of the doudizhu (斗地主) arena game engine.

Shallow embedding of the card module (`src/server/game/cards.ts` and the
client mirror), the pattern-recognition module (`cardTypes`, shipped in the
repository as the unnamed part_005 source file), and the game engine
(`gameEngine`, shipped inline with `src/server/cardValidation.test.ts`).

Conventions used throughout:
* TypeScript `number` fields holding small integers are embedded as `Nat`
  (card values, counters) or `Int` (bid amounts, model ids) — no overflow is
  possible at the magnitudes involved.
* `null`/`undefined` become `Option`.
* `Array.prototype.sort` with the comparator `(a, b) => a.value - b.value`
  is a stable sort by card value; it is embedded as `List.insertionSort`
  with the relation `a.value ≤ b.value`, which computes the same stable
  result on every input.
* A JavaScript `Map` is embedded as an association list kept in insertion
  order (`mapGet` / `mapSet` below), matching `Map.prototype.get/set` and
  the insertion-order iteration of `keys()` / `values()`.
* `new Date()` timestamps are an environment input; the engine entry points
  take an explicit `now : Nat` argument standing for the current time.
* The engine copies states with the spread operator `{...state}`, a shallow
  copy: the `hands` object is shared between the input state and the copy,
  and `setPlayerHand` writes through that shared object.  The embedding
  threads the contents of the shared `hands` object explicitly: each engine
  entry point returns the pair of its result and the final contents of the
  `hands` object it shares with the input state (so the second component
  describes the input state's `hands` after the call).
-/

/-- Suit enumeration (source `Suit`): the four French suits plus the joker
pseudo-suit.  The source represents each by its symbol string. -/
inductive Suit where
  | SPADE
  | HEART
  | CLUB
  | DIAMOND
  | JOKER
deriving DecidableEq

/-- Rank enumeration (source `Rank`), in the doudizhu value order. -/
inductive Rank where
  | THREE
  | FOUR
  | FIVE
  | SIX
  | SEVEN
  | EIGHT
  | NINE
  | TEN
  | JACK
  | QUEEN
  | KING
  | ACE
  | TWO
  | SMALL_JOKER
  | BIG_JOKER
deriving DecidableEq

/-- Source `RANK_VALUES`: the numeric comparison value of each rank. -/
def rankValues : Rank → Nat
  | .THREE => 3
  | .FOUR => 4
  | .FIVE => 5
  | .SIX => 6
  | .SEVEN => 7
  | .EIGHT => 8
  | .NINE => 9
  | .TEN => 10
  | .JACK => 11
  | .QUEEN => 12
  | .KING => 13
  | .ACE => 14
  | .TWO => 15
  | .SMALL_JOKER => 16
  | .BIG_JOKER => 17

/-- Source `Card` interface: a suit, a rank, and the cached comparison
value (every card the program constructs satisfies
`value = rankValues rank`). -/
structure Card where
  suit : Suit
  rank : Rank
  value : Nat
deriving DecidableEq

/-- The suit list iterated by `createDeck` (JOKER excluded). -/
def deckSuits : List Suit := [.SPADE, .HEART, .CLUB, .DIAMOND]

/-- The rank list iterated by `createDeck` (jokers excluded). -/
def deckRanks : List Rank :=
  [.THREE, .FOUR, .FIVE, .SIX, .SEVEN, .EIGHT, .NINE, .TEN, .JACK, .QUEEN,
   .KING, .ACE, .TWO]

/-- Source `createDeck`: the 54-card deck, 13 ranks for each of the four
suits followed by the two jokers, in the source's loop order. -/
def createDeck : List Card :=
  (deckSuits.map (fun s =>
    deckRanks.map (fun r => Card.mk s r (rankValues r)))).flatten ++
  [Card.mk .JOKER .SMALL_JOKER (rankValues .SMALL_JOKER),
   Card.mk .JOKER .BIG_JOKER (rankValues .BIG_JOKER)]

/-- The comparison relation used by `sortCards` (comparator
`(a, b) => a.value - b.value`). -/
def cardLe (a b : Card) : Prop := a.value ≤ b.value

instance : DecidableRel cardLe := fun a b => Nat.decLe a.value b.value

instance : IsTotal Card cardLe := ⟨fun a b => Nat.le_total a.value b.value⟩

instance : IsTrans Card cardLe := ⟨fun _ _ _ => Nat.le_trans⟩

/-- Source `sortCards`: stable sort by card value (ties keep their input
order, as JavaScript's stable `Array.prototype.sort` does). -/
def sortCards (cards : List Card) : List Card :=
  List.insertionSort cardLe cards

/-- The result record of `dealCards`. -/
structure Deal where
  player0 : List Card
  player1 : List Card
  player2 : List Card
  landlordCards : List Card
deriving DecidableEq

/-- Source `dealCards`, with the shuffle made explicit: `shuffleDeck`
produces a uniformly random permutation of `createDeck`, which we pass in
as the `deck` argument.  The partition boundaries are the source's
`slice(0,17)`, `slice(17,34)`, `slice(34,51)`, `slice(51,54)`. -/
def dealCardsWith (deck : List Card) : Deal where
  player0 := sortCards (deck.take 17)
  player1 := sortCards ((deck.drop 17).take 17)
  player2 := sortCards ((deck.drop 34).take 17)
  landlordCards := sortCards ((deck.drop 51).take 3)

/-- The symbol string of a suit (the string value of the `Suit` enum). -/
def suitString : Suit → String
  | .SPADE => "♠"
  | .HEART => "♥"
  | .CLUB => "♣"
  | .DIAMOND => "♦"
  | .JOKER => "🃏"

/-- The string value of the `Rank` enum. -/
def rankString : Rank → String
  | .THREE => "3"
  | .FOUR => "4"
  | .FIVE => "5"
  | .SIX => "6"
  | .SEVEN => "7"
  | .EIGHT => "8"
  | .NINE => "9"
  | .TEN => "10"
  | .JACK => "J"
  | .QUEEN => "Q"
  | .KING => "K"
  | .ACE => "A"
  | .TWO => "2"
  | .SMALL_JOKER => "小王"
  | .BIG_JOKER => "大王"

/-- Source `cardToString`. -/
def cardToString (card : Card) : String :=
  if card.rank = .SMALL_JOKER ∨ card.rank = .BIG_JOKER then
    rankString card.rank
  else
    suitString card.suit ++ rankString card.rank

/-- Source `cardsToStrings`. -/
def cardsToStrings (cards : List Card) : List String :=
  cards.map cardToString

/-- Source `Object.values(Suit).find(s => s === suitChar)` where `suitChar`
is the first UTF-16 code unit of the input.  The JOKER symbol "🃏" occupies
two UTF-16 code units, so a one-unit `suitChar` can never equal it; the
four one-unit suits are the only possible matches. -/
def findSuit (suitChar : String) : Option Suit :=
  [Suit.SPADE, Suit.HEART, Suit.CLUB, Suit.DIAMOND].find?
    (fun s => suitString s = suitChar)

/-- Source `Object.values(Rank).find(r => r === rankStr)`. -/
def findRank (rankStr : String) : Option Rank :=
  [Rank.THREE, Rank.FOUR, Rank.FIVE, Rank.SIX, Rank.SEVEN, Rank.EIGHT,
   Rank.NINE, Rank.TEN, Rank.JACK, Rank.QUEEN, Rank.KING, Rank.ACE,
   Rank.TWO, Rank.SMALL_JOKER, Rank.BIG_JOKER].find?
    (fun r => rankString r = rankStr)

/-- Source `stringToCard`: joker names are matched whole; otherwise the
first character is looked up as a suit and the rest as a rank, and `null`
(here `none`) is returned when either lookup fails. -/
def stringToCard (str : String) : Option Card :=
  if str = rankString .SMALL_JOKER then
    some (Card.mk .JOKER .SMALL_JOKER (rankValues .SMALL_JOKER))
  else if str = rankString .BIG_JOKER then
    some (Card.mk .JOKER .BIG_JOKER (rankValues .BIG_JOKER))
  else
    match findSuit (str.take 1), findRank (str.drop 1) with
    | some suit, some rank => some (Card.mk suit rank (rankValues rank))
    | _, _ => none

/-- Source `stringsToCards`: the loop pushes each parsed card and silently
skips every token on which `stringToCard` returned `null`. -/
def stringsToCards (strings : List String) : List Card :=
  strings.foldl
    (fun cards str =>
      match stringToCard str with
      | some card => cards ++ [card]
      | none => cards)
    []

/-- Lookup in the association-list embedding of a JavaScript `Map`
(`counts.get(value) || 0`): first entry with the given key, defaulting
to 0. -/
def mapGet : List (Nat × Nat) → Nat → Nat
  | [], _ => 0
  | p :: m, k => if p.1 = k then p.2 else mapGet m k

/-- `Map.prototype.has`: whether an entry with the given key exists. -/
def mapHasKey : List (Nat × Nat) → Nat → Bool
  | [], _ => false
  | p :: m, k => p.1 = k || mapHasKey m k

/-- `Map.prototype.set`: update the entry in place when the key is present
(keeping insertion order), otherwise append a new entry. -/
def mapSet (m : List (Nat × Nat)) (k : Nat) (v : Nat) : List (Nat × Nat) :=
  if mapHasKey m k then
    m.map (fun p => if p.1 = k then (k, v) else p)
  else
    m ++ [(k, v)]

/-- Source `countCards`: the value-multiplicity `Map`, built by one pass
over the cards. -/
def countCards (cards : List Card) : List (Nat × Nat) :=
  cards.foldl (fun counts c => mapSet counts c.value (mapGet counts c.value + 1)) []

/-- The identity the source uses to compare concrete cards: the string
`suit + "-" + rank`, embedded as the (suit, rank) pair it injectively
encodes. -/
def cardId (c : Card) : Suit × Rank := (c.suit, c.rank)

/-- Source `hasCards`: every card identity requested must occur in the hand
at least as often as in the request.  (The source iterates the distinct
identities of the request; checking the same inequality at every requested
card is the same condition.) -/
def hasCards (hand cards : List Card) : Bool :=
  cards.all (fun c =>
    cards.countP (fun x => cardId x = cardId c) ≤
      hand.countP (fun x => cardId x = cardId c))

/-- Remove the first `n` cards with identity `id` from a list. -/
def removeFirstMatching (id : Suit × Rank) : Nat → List Card → List Card
  | _, [] => []
  | 0, l => l
  | n + 1, c :: l =>
      if cardId c = id then removeFirstMatching id n l
      else c :: removeFirstMatching id (n + 1) l

/-- Source `removeCards`: for each distinct identity in `cards` remove, from
the back of the hand, as many matching cards as were requested.  (The
source scans the copied hand from the end; removing from the back is
removing the first matches of the reversed list.) -/
def removeCards (hand cards : List Card) : List Card :=
  let ids := cards.foldl (fun acc c => if cardId c ∈ acc then acc else acc ++ [cardId c]) []
  ids.foldl
    (fun result id =>
      (removeFirstMatching id (cards.countP (fun x => cardId x = id)) result.reverse).reverse)
    hand

/-- Source `CardType` enumeration of recognised patterns.  The member the
source calls TRIO is spelled TRIO_PLAIN here. -/
inductive CardType where
  | INVALID
  | SINGLE
  | PAIR
  | TRIO_PLAIN
  | TRIO_SINGLE
  | TRIO_PAIR
  | STRAIGHT
  | PAIR_STRAIGHT
  | TRIO_STRAIGHT
  | TRIO_STRAIGHT_SINGLE
  | TRIO_STRAIGHT_PAIR
  | FOUR_DUAL_SINGLE
  | FOUR_DUAL_PAIR
  | BOMB
  | ROCKET
deriving DecidableEq

/-- Source `CardPattern` interface. -/
structure CardPattern where
  type : CardType
  value : Nat
  length : Nat
  cards : List Card
deriving DecidableEq

/-- Source `isRocket` (the unused `counts` parameter is dropped): exactly
the two jokers, small before big in the sorted list. -/
def isRocket (cards : List Card) : Bool :=
  match cards with
  | [a, b] => decide (a.rank = Rank.SMALL_JOKER ∧ b.rank = Rank.BIG_JOKER)
  | _ => false

/-- Source `isBomb`: one distinct value occurring four times. -/
def isBomb (counts : List (Nat × Nat)) : Bool :=
  counts.length = 1 ∧ (counts.map Prod.snd).headD 0 = 4

/-- Source `isPair`. -/
def isPair (counts : List (Nat × Nat)) : Bool :=
  counts.length = 1 ∧ (counts.map Prod.snd).headD 0 = 2

/-- Source `isTrio`. -/
def isTrio (counts : List (Nat × Nat)) : Bool :=
  counts.length = 1 ∧ (counts.map Prod.snd).headD 0 = 3

/-- The multiplicities sorted descending, as the source's
`Array.from(counts.values()).sort((a, b) => b - a)`. -/
def countValuesDesc (counts : List (Nat × Nat)) : List Nat :=
  List.insertionSort (fun a b => b ≤ a) (counts.map Prod.snd)

/-- Source `isTrioSingle`. -/
def isTrioSingle (counts : List (Nat × Nat)) : Bool :=
  counts.length == 2 &&
    match countValuesDesc counts with
    | [a, b] => a == 3 && b == 1
    | _ => false

/-- Source `isTrioPair`. -/
def isTrioPair (counts : List (Nat × Nat)) : Bool :=
  counts.length == 2 &&
    match countValuesDesc counts with
    | [a, b] => a == 3 && b == 2
    | _ => false

/-- Source `findTrioValue`: first key (in `Map` insertion order) with
multiplicity 3, defaulting to 0. -/
def findTrioValue (counts : List (Nat × Nat)) : Nat :=
  ((counts.find? (fun p => p.2 = 3)).map Prod.fst).getD 0

/-- Source `findFourValue`. -/
def findFourValue (counts : List (Nat × Nat)) : Nat :=
  ((counts.find? (fun p => p.2 = 4)).map Prod.fst).getD 0

/-- The consecutive-run check shared by the straight-like recognisers: the
source loop `uniqueValues[i] - uniqueValues[i-1] !== 1` (on naturals,
`b - a = 1` holds exactly when `b = a + 1`, also matching the JavaScript
number subtraction verdict when `b < a`). -/
def consecB : List Nat → Bool
  | [] => true
  | [_] => true
  | a :: b :: l => b - a = 1 ∧ consecB (b :: l)

/-- Source `isStraight`: at least five distinct values, none ≥ 15, all
multiplicity 1, consecutive; returns the lowest value and the run
length. -/
def isStraight (uniqueValues : List Nat) (counts : List (Nat × Nat)) :
    Option (Nat × Nat) :=
  if uniqueValues.length < 5 then none
  else if uniqueValues.any (fun v => 15 ≤ v) then none
  else if uniqueValues.any (fun v => mapGet counts v ≠ 1) then none
  else if ¬ consecB uniqueValues then none
  else some (uniqueValues.headD 0, uniqueValues.length)

/-- Source `isPairStraight`: at least three consecutive pairs below 15. -/
def isPairStraight (uniqueValues : List Nat) (counts : List (Nat × Nat)) :
    Option (Nat × Nat) :=
  if uniqueValues.length < 3 then none
  else if uniqueValues.any (fun v => 15 ≤ v) then none
  else if uniqueValues.any (fun v => mapGet counts v ≠ 2) then none
  else if ¬ consecB uniqueValues then none
  else some (uniqueValues.headD 0, uniqueValues.length)

/-- Source `isTrioStraight`: at least two consecutive trios below 15. -/
def isTrioStraight (uniqueValues : List Nat) (counts : List (Nat × Nat)) :
    Option (Nat × Nat) :=
  if uniqueValues.length < 2 then none
  else if uniqueValues.any (fun v => 15 ≤ v) then none
  else if uniqueValues.any (fun v => mapGet counts v ≠ 3) then none
  else if ¬ consecB uniqueValues then none
  else some (uniqueValues.headD 0, uniqueValues.length)

/-- Source `isTrioStraightSingle`: consecutive trios each carrying one
single wing. -/
def isTrioStraightSingle (uniqueValues : List Nat) (counts : List (Nat × Nat)) :
    Option (Nat × Nat) :=
  if uniqueValues.any (fun v => mapGet counts v ≠ 3 ∧ mapGet counts v ≠ 1) then none
  else
    let trioValues := uniqueValues.filter (fun v => mapGet counts v = 3)
    let singleValues := uniqueValues.filter (fun v => mapGet counts v = 1)
    if trioValues.length < 2 then none
    else if singleValues.length ≠ trioValues.length then none
    else if trioValues.any (fun v => 15 ≤ v) then none
    else if ¬ consecB (List.insertionSort (· ≤ ·) trioValues) then none
    else some ((List.insertionSort (· ≤ ·) trioValues).headD 0, trioValues.length)

/-- Source `isTrioStraightPair`: consecutive trios each carrying one pair
wing. -/
def isTrioStraightPair (uniqueValues : List Nat) (counts : List (Nat × Nat)) :
    Option (Nat × Nat) :=
  if uniqueValues.any (fun v => mapGet counts v ≠ 3 ∧ mapGet counts v ≠ 2) then none
  else
    let trioValues := uniqueValues.filter (fun v => mapGet counts v = 3)
    let pairValues := uniqueValues.filter (fun v => mapGet counts v = 2)
    if trioValues.length < 2 then none
    else if pairValues.length ≠ trioValues.length then none
    else if trioValues.any (fun v => 15 ≤ v) then none
    else if ¬ consecB (List.insertionSort (· ≤ ·) trioValues) then none
    else some ((List.insertionSort (· ≤ ·) trioValues).headD 0, trioValues.length)

/-- Source `isFourDualSingle`. -/
def isFourDualSingle (counts : List (Nat × Nat)) : Bool :=
  counts.length == 3 &&
    match countValuesDesc counts with
    | [a, b, c] => a == 4 && b == 1 && c == 1
    | _ => false

/-- Source `isFourDualPair`. -/
def isFourDualPair (counts : List (Nat × Nat)) : Bool :=
  counts.length == 3 &&
    match countValuesDesc counts with
    | [a, b, c] => a == 4 && b == 2 && c == 2
    | _ => false

/-- Source `recognizePattern`: classify a played card list, trying the
pattern shapes in the source's order. -/
def recognizePattern (cards : List Card) : CardPattern :=
  if cards.length = 0 then ⟨.INVALID, 0, 0, cards⟩ else
  let sorted := sortCards cards
  let counts := countCards sorted
  let uniqueValues := List.insertionSort (· ≤ ·) (counts.map Prod.fst)
  if isRocket sorted then ⟨.ROCKET, 17, 2, sorted⟩
  else if isBomb counts then ⟨.BOMB, uniqueValues.headD 0, 4, sorted⟩
  else if cards.length = 1 then
    ⟨.SINGLE, (match cards with | c :: _ => c.value | [] => 0), 1, sorted⟩
  else if isPair counts then ⟨.PAIR, uniqueValues.headD 0, 2, sorted⟩
  else if isTrio counts then ⟨.TRIO_PLAIN, uniqueValues.headD 0, 3, sorted⟩
  else if isTrioSingle counts then ⟨.TRIO_SINGLE, findTrioValue counts, 4, sorted⟩
  else if isTrioPair counts then ⟨.TRIO_PAIR, findTrioValue counts, 5, sorted⟩
  else match isStraight uniqueValues counts with
  | some (mv, len) => ⟨.STRAIGHT, mv, len, sorted⟩
  | none => match isPairStraight uniqueValues counts with
  | some (mv, len) => ⟨.PAIR_STRAIGHT, mv, len, sorted⟩
  | none => match isTrioStraight uniqueValues counts with
  | some (mv, len) => ⟨.TRIO_STRAIGHT, mv, len, sorted⟩
  | none => match isTrioStraightSingle uniqueValues counts with
  | some (mv, len) => ⟨.TRIO_STRAIGHT_SINGLE, mv, len, sorted⟩
  | none => match isTrioStraightPair uniqueValues counts with
  | some (mv, len) => ⟨.TRIO_STRAIGHT_PAIR, mv, len, sorted⟩
  | none =>
    if isFourDualSingle counts then ⟨.FOUR_DUAL_SINGLE, findFourValue counts, 6, sorted⟩
    else if isFourDualPair counts then ⟨.FOUR_DUAL_PAIR, findFourValue counts, 8, sorted⟩
    else ⟨.INVALID, 0, 0, sorted⟩

/-- The pattern families whose comparison also requires equal length
(straight, consecutive pairs, airplane family). -/
def isVariableLength : CardType → Bool
  | .STRAIGHT => true
  | .PAIR_STRAIGHT => true
  | .TRIO_STRAIGHT => true
  | .TRIO_STRAIGHT_SINGLE => true
  | .TRIO_STRAIGHT_PAIR => true
  | _ => false

/-- Source `comparePatterns`: 1 / 0 / -1 for greater / equal / smaller,
`null` (here `none`) when the patterns are incomparable. -/
def comparePatterns (pattern1 pattern2 : CardPattern) : Option Int :=
  if pattern1.type = .ROCKET then some 1
  else if pattern2.type = .ROCKET then some (-1)
  else if pattern1.type = .BOMB ∧ pattern2.type ≠ .BOMB then some 1
  else if pattern2.type = .BOMB ∧ pattern1.type ≠ .BOMB then some (-1)
  else if pattern1.type = .BOMB ∧ pattern2.type = .BOMB then
    some (if pattern1.value > pattern2.value then 1
          else if pattern1.value < pattern2.value then -1 else 0)
  else if pattern1.type ≠ pattern2.type then none
  else if isVariableLength pattern1.type ∧ pattern1.length ≠ pattern2.length then none
  else
    some (if pattern1.value > pattern2.value then 1
          else if pattern1.value < pattern2.value then -1 else 0)

/-- Source `canBeat`: `comparePatterns(pattern1, pattern2) === 1`. -/
def canBeat (pattern1 pattern2 : CardPattern) : Bool :=
  comparePatterns pattern1 pattern2 = some 1

/-- Source `GamePhase`. -/
inductive GamePhase where
  | BIDDING
  | PLAYING
  | FINISHED
deriving DecidableEq

/-- Source `BidAction.type`. -/
inductive BidActionType where
  | bid
  | pass
deriving DecidableEq

/-- Source `BidAction` interface (`amount` is optional). -/
structure BidAction where
  type : BidActionType
  amount : Option Int := none
deriving DecidableEq

/-- Source `PlayAction.type`. -/
inductive PlayActionType where
  | play
  | pass
deriving DecidableEq

/-- Source `PlayAction` interface (`cards` is optional). -/
structure PlayAction where
  type : PlayActionType
  cards : Option (List Card) := none
deriving DecidableEq

/-- Source `GameAction.actionType`. -/
inductive GameActionType where
  | bid
  | pass_bid
  | play
  | pass_play
deriving DecidableEq

/-- Source `GameAction` history record.  `cardType` stores the `CardType`
enum value (a string in the source); `timestamp` is the `new Date()`
instant, embedded as a number. -/
structure GameAction where
  roundNumber : Nat
  playerPosition : Fin 3
  actionType : GameActionType
  cards : Option (List String) := none
  cardType : Option CardType := none
  bidAmount : Option Int := none
  timestamp : Nat
deriving DecidableEq

/-- Source `winnerType` values. -/
inductive WinnerType where
  | landlord
  | farmer
deriving DecidableEq

/-- The `hands` sub-object of the game state.  In the source this is one
mutable object shared by every shallow `{...state}` copy of a state. -/
structure Hands where
  player0 : List Card
  player1 : List Card
  player2 : List Card
deriving DecidableEq

/-- Source `GameState`.  `startedAt` / `finishedAt` dates are embedded as
numbers. -/
structure GameState where
  gameId : String
  phase : GamePhase
  player0ModelId : Int
  player1ModelId : Int
  player2ModelId : Int
  hands : Hands
  landlordCards : List Card
  currentBidder : Fin 3
  highestBid : Int
  highestBidder : Option (Fin 3)
  passCount : Nat
  landlordPosition : Option (Fin 3)
  currentPlayer : Fin 3
  lastPlayedCards : Option (List Card)
  lastPlayedPattern : Option CardPattern
  lastPlayer : Option (Fin 3)
  consecutivePasses : Nat
  roundNumber : Nat
  history : List GameAction
  winner : Option (Fin 3)
  winnerType : Option WinnerType
  startedAt : Nat
  finishedAt : Option Nat
deriving DecidableEq

/-- Source `getPlayerHand`. -/
def getPlayerHand (state : GameState) (position : Fin 3) : List Card :=
  if position = 0 then state.hands.player0
  else if position = 1 then state.hands.player1
  else state.hands.player2

/-- Source `setPlayerHand` assigns one player's hand on the (shared,
mutable) `hands` object; the embedding returns the updated contents of
that object. -/
def setPlayerHand (hands : Hands) (position : Fin 3) (hand : List Card) : Hands :=
  if position = 0 then { hands with player0 := hand }
  else if position = 1 then { hands with player1 := hand }
  else { hands with player2 := hand }

/-- Seat rotation `(position + 1) % 3`. -/
def nextPosition (position : Fin 3) : Fin 3 := position + 1

/-- Render an optional seat number the way a template literal renders a
`PlayerPosition | null`. -/
def positionToString (p : Option (Fin 3)) : String :=
  match p with
  | some q => toString q.val
  | none => "null"

/-- An engine call result: the returned state (or the thrown error
message), paired with the final contents of the `hands` object that the
input state shares with every shallow copy made during the call.  The
second component is therefore the input state's `hands` after the call. -/
abbrev EngineResult := Except String GameState × Hands

/-- Source `finalizeLandlord`: fix the landlord seat, enter the playing
phase, and merge the three landlord cards (re-sorted) into the landlord's
hand.  The hand merge goes through `setPlayerHand`, i.e. through the
shared `hands` object. -/
def finalizeLandlord (state : GameState) : EngineResult :=
  match state.highestBidder with
  | none => (Except.error "No bidder found", state.hands)
  | some hb =>
    let landlordHand := getPlayerHand state hb
    let updatedHand := sortCards (landlordHand ++ state.landlordCards)
    let newHands := setPlayerHand state.hands hb updatedHand
    (Except.ok { state with
        landlordPosition := some hb
        phase := .PLAYING
        currentPlayer := hb
        hands := newHands },
      newHands)

/-- Source `processBidAction`: validate and apply one bidding action.  The
history record is appended to the copy's `history` field (the source
rebuilds the array with `[...state.history, gameAction]`, so the input's
history is untouched). -/
def processBidAction (state : GameState) (action : BidAction) (now : Nat) :
    EngineResult :=
  if state.phase ≠ .BIDDING then
    (Except.error "Not in bidding phase", state.hands)
  else
    let currentPlayer := state.currentBidder
    let gameAction : GameAction :=
      { roundNumber := state.roundNumber
        playerPosition := currentPlayer
        actionType := if action.type = .bid then .bid else .pass_bid
        bidAmount := action.amount
        timestamp := now }
    let ns := { state with history := state.history ++ [gameAction] }
    match action.type with
    | .bid =>
      match action.amount with
      | none => (Except.error "Invalid bid amount", state.hands)
      | some amount =>
        if amount < 1 ∨ 3 < amount then
          (Except.error "Invalid bid amount", state.hands)
        else if amount ≤ state.highestBid then
          (Except.error "Bid amount must be higher than current highest bid", state.hands)
        else
          let ns := { ns with
            highestBid := amount
            highestBidder := some currentPlayer
            passCount := 0 }
          if amount = 3 then finalizeLandlord ns
          else
            (Except.ok { ns with
                currentBidder := nextPosition currentPlayer
                roundNumber := state.roundNumber + 1 },
              state.hands)
    | .pass =>
      let ns := { ns with passCount := state.passCount + 1 }
      if ns.passCount = 3 ∧ ns.highestBidder = none then
        finalizeLandlord { ns with highestBid := 1, highestBidder := some 0 }
      else if ns.highestBidder.isSome ∧ ns.passCount = 2 then
        finalizeLandlord ns
      else
        (Except.ok { ns with
            currentBidder := nextPosition currentPlayer
            roundNumber := state.roundNumber + 1 },
          state.hands)

/-- Source `finishGame`. -/
def finishGame (state : GameState) (winner : Fin 3) (now : Nat) : GameState :=
  { state with
    phase := .FINISHED
    winner := some winner
    winnerType := some (if state.landlordPosition = some winner then .landlord else .farmer)
    finishedAt := some now }

/-- The successful tail of the play branch of `processPlayAction`: remove
the played cards from the mover's hand (through the shared `hands`
object), record the play, and either finish the game or advance the
seat. -/
def applyPlay (state : GameState) (currentPlayer : Fin 3) (hand cards : List Card)
    (pattern : CardPattern) (now : Nat) : EngineResult :=
  let newHand := removeCards hand cards
  let newHands := setPlayerHand state.hands currentPlayer newHand
  let gameAction : GameAction :=
    { roundNumber := state.roundNumber
      playerPosition := currentPlayer
      actionType := .play
      cards := some (cardsToStrings cards)
      cardType := some pattern.type
      timestamp := now }
  let base := { state with
    hands := newHands
    lastPlayedCards := some cards
    lastPlayedPattern := some pattern
    lastPlayer := some currentPlayer
    consecutivePasses := 0
    history := state.history ++ [gameAction] }
  if newHand.length = 0 then
    (Except.ok (finishGame base currentPlayer now), newHands)
  else
    (Except.ok { base with
        currentPlayer := nextPosition currentPlayer
        roundNumber := state.roundNumber + 1 },
      newHands)

/-- Source `processPlayAction`: validate and apply one playing action.  In
the play branch, detecting a new round clears the trick fields on the copy
before the beat check; on success those fields are overwritten, so the
clear is visible only to the beat check (the `consecutivePasses` reset is
likewise subsumed by the unconditional reset on success).  In the pass
branch the source reads `state.lastPlayer!` with a non-null assertion; the
embedding defaults to seat 0, and every claim about this path assumes
`lastPlayer` is set. -/
def processPlayAction (state : GameState) (action : PlayAction) (now : Nat) :
    EngineResult :=
  if state.phase ≠ .PLAYING then
    (Except.error "Not in playing phase", state.hands)
  else
    let currentPlayer := state.currentPlayer
    let hand := getPlayerHand state currentPlayer
    match action.type with
    | .play =>
      match action.cards with
      | none => (Except.error "No cards provided", state.hands)
      | some cards =>
        if cards.length = 0 then
          (Except.error "No cards provided", state.hands)
        else if ¬ hasCards hand cards then
          (Except.error "Player does not have these cards", state.hands)
        else
          let pattern := recognizePattern cards
          if pattern.type = .INVALID then
            (Except.error "Invalid card pattern", state.hands)
          else
            let isNewRound := state.lastPlayer = some currentPlayer
            let lastPlayedCards := if isNewRound then none else state.lastPlayedCards
            let lastPlayedPattern := if isNewRound then none else state.lastPlayedPattern
            match lastPlayedPattern with
            | some lastPattern =>
              if ¬ canBeat pattern lastPattern then
                (Except.error
                  ("Cannot beat last played cards. Last player (" ++
                    positionToString state.lastPlayer ++ ") played: " ++
                    String.intercalate ", " (cardsToStrings (lastPlayedCards.getD [])) ++
                    ". Your cards: " ++
                    String.intercalate ", " (cardsToStrings cards)),
                  state.hands)
              else applyPlay state currentPlayer hand cards pattern now
            | none => applyPlay state currentPlayer hand cards pattern now
    | .pass =>
      if state.lastPlayedPattern = none then
        (Except.error "Cannot pass when you are the first player", state.hands)
      else
        let gameAction : GameAction :=
          { roundNumber := state.roundNumber
            playerPosition := currentPlayer
            actionType := .pass_play
            timestamp := now }
        let ns := { state with
          consecutivePasses := state.consecutivePasses + 1
          history := state.history ++ [gameAction] }
        if ns.consecutivePasses = 2 then
          (Except.ok { ns with
              lastPlayedCards := none
              lastPlayedPattern := none
              consecutivePasses := 0
              currentPlayer := state.lastPlayer.getD 0
              roundNumber := state.roundNumber + 1 },
            state.hands)
        else
          (Except.ok { ns with
              currentPlayer := nextPosition currentPlayer
              roundNumber := state.roundNumber + 1 },
            state.hands)

/-- The redacted projection returned by `getPublicGameState`. -/
structure PublicGameState where
  gameId : String
  phase : GamePhase
  roundNumber : Nat
  myHand : List String
  player0HandCount : Nat
  player1HandCount : Nat
  player2HandCount : Nat
  landlordPosition : Option (Fin 3)
  landlordCards : Option (List String)
  currentBidder : Option (Fin 3)
  highestBid : Int
  highestBidder : Option (Fin 3)
  currentPlayer : Option (Fin 3)
  lastPlayedCards : Option (List String)
  lastPlayer : Option (Fin 3)
  winner : Option (Fin 3)
  winnerType : Option WinnerType
deriving DecidableEq

/-- Source `getPublicGameState`: the state as shown to one seat — the full
hand of `forPlayer`, the card counts (only) of all three seats, and the
public phase, bidding, trick and result information. -/
def getPublicGameState (state : GameState) (forPlayer : Fin 3) : PublicGameState where
  gameId := state.gameId
  phase := state.phase
  roundNumber := state.roundNumber
  myHand := cardsToStrings (getPlayerHand state forPlayer)
  player0HandCount := state.hands.player0.length
  player1HandCount := state.hands.player1.length
  player2HandCount := state.hands.player2.length
  landlordPosition := state.landlordPosition
  landlordCards :=
    if state.phase = .PLAYING then some (cardsToStrings state.landlordCards) else none
  currentBidder :=
    if state.phase = .BIDDING then some state.currentBidder else none
  highestBid := state.highestBid
  highestBidder := state.highestBidder
  currentPlayer :=
    if state.phase = .PLAYING then some state.currentPlayer else none
  lastPlayedCards := state.lastPlayedCards.map cardsToStrings
  lastPlayer := state.lastPlayer
  winner := state.winner
  winnerType := state.winnerType

/-! ### Specification-side definitions

`canBeatSpec` transcribes the dominance order exactly as the specification
words it, to be compared with the source's `canBeat`. -/

/-- The dominance order as the specification states it: a Rocket beats
everything; a Bomb beats any non-Bomb, non-Rocket; between Bombs the
strictly higher value wins; otherwise a beat requires the same type, equal
length for the variable-length shapes, and a strictly higher value. -/
def canBeatSpec (challenger incumbent : CardPattern) : Bool :=
  if challenger.type = .ROCKET then true
  else if challenger.type = .BOMB ∧ incumbent.type ≠ .BOMB ∧ incumbent.type ≠ .ROCKET then
    true
  else if challenger.type = .BOMB ∧ incumbent.type = .BOMB then
    incumbent.value < challenger.value
  else
    challenger.type = incumbent.type ∧
      (isVariableLength challenger.type = true → challenger.length = incumbent.length) ∧
      incumbent.value < challenger.value

/-! ### Helper lemmas -/

/-- Unfolding the accumulator of the `stringsToCards` loop. -/
theorem stringsToCards_loop (strings : List String) :
    ∀ acc : List Card,
      strings.foldl
        (fun cards str =>
          match stringToCard str with
          | some card => cards ++ [card]
          | none => cards)
        acc = acc ++ strings.filterMap stringToCard := by
  induction strings with
  | nil => intro acc; simp
  | cons s rest ih =>
    intro acc
    simp only [List.foldl_cons, List.filterMap_cons]
    cases h : stringToCard s with
    | none => simp [h, ih]
    | some c => simp [h, ih]

/-! ### C10 -/

/-- C10: `stringsToCards` is total — it returns exactly the parses of the
parseable tokens in input order, silently omitting every token on which
`stringToCard` returns `null`, so the result can be strictly shorter than
the input with no error signalled. -/
theorem c10_stringsToCards_total :
    (∀ strings : List String, stringsToCards strings = strings.filterMap stringToCard) ∧
    stringsToCards ["zz", "♠3"] = [Card.mk .SPADE .THREE 3] ∧
    (stringsToCards ["zz", "♠3"]).length < (["zz", "♠3"] : List String).length := by
  refine ⟨fun strings => ?_, by decide, by decide⟩
  simpa using stringsToCards_loop strings []

/-! ### C5 -/

/-- The Rocket pattern as recognised from the two jokers. -/
def rocketPattern : CardPattern :=
  recognizePattern [Card.mk .JOKER .SMALL_JOKER 16, Card.mk .JOKER .BIG_JOKER 17]

/-- C5 counterexample: the claim asserts `canBeat` is false on any two
structurally identical patterns, two Rockets included, but the source
returns 1 whenever the challenger is a Rocket, so a Rocket beats a
Rocket. -/
theorem c5_counterexample : canBeat rocketPattern rocketPattern = true := by decide

/-- C5 amended: for every two patterns with the same type tag and the same
value, of any type other than Rocket, `canBeat` returns false (no
self-beat); two Rockets, impossible from a real deck, instead yield a
successful beat. -/
theorem c5_no_self_beat (t : CardType) (v l : Nat) (cs1 cs2 : List Card)
    (h : t ≠ CardType.ROCKET) :
    canBeat ⟨t, v, l, cs1⟩ ⟨t, v, l, cs2⟩ = false := by
  cases t <;> simp_all [canBeat, comparePatterns, isVariableLength]

/-- Witness for C5's amended theorem at two equal (impossible) 7-bombs. -/
theorem c5_no_self_beat_witness :
    CardType.BOMB ≠ CardType.ROCKET ∧
      canBeat ⟨CardType.BOMB, 7, 4, []⟩ ⟨CardType.BOMB, 7, 4, []⟩ = false :=
  ⟨by decide, c5_no_self_beat CardType.BOMB 7 4 [] [] (by decide)⟩

/-! ### C2 -/

/-- The value comparison at the bottom of `comparePatterns`, packaged as a
strict-inequality verdict. -/
theorem compareValueAux (v1 v2 : Nat) :
    (!decide (v1 ≤ v2) || decide ((if v1 < v2 then (-1 : Int) else 0) = 1)) =
      decide (v2 < v1) := by
  rcases Nat.lt_trichotomy v1 v2 with h | h | h
  · simp [h, Nat.le_of_lt h, Nat.not_lt.mpr (Nat.le_of_lt h)]
  · subst h
    simp
  · simp [h, Nat.not_le.mpr h, Nat.not_lt.mpr (Nat.le_of_lt h)]

/-- C2: `canBeat` implements exactly the specified dominance order
(`canBeatSpec`, transcribed from the specification): Rocket beats
everything, Bomb beats any non-Bomb non-Rocket, Bombs compare by value,
and all other beats require same type, equal length for the
variable-length shapes, and strictly higher value; every other case —
cross-type, cross-length, equal value — is a non-beat, and the function
never throws (it is total by construction). -/
theorem c2_canBeat_eq_spec (challenger incumbent : CardPattern) :
    canBeat challenger incumbent = canBeatSpec challenger incumbent := by
  obtain ⟨t1, v1, l1, cs1⟩ := challenger
  obtain ⟨t2, v2, l2, cs2⟩ := incumbent
  cases t1 <;> cases t2 <;>
    simp [canBeat, canBeatSpec, comparePatterns, isVariableLength, compareValueAux]

/-! ### C4 -/

/-- C4: in the playing phase with an active trick, a pass that raises
`consecutivePasses` to 2 closes the trick — the returned state has the
trick fields cleared, the pass counter reset, and `currentPlayer` set back
to `lastPlayer`, not to the next seat in rotation. -/
theorem c4_two_passes_close_trick (s : GameState) (a : PlayAction) (now : Nat)
    (lp : Fin 3)
    (hphase : s.phase = GamePhase.PLAYING) (hpat : s.lastPlayedPattern.isSome)
    (hcp : s.consecutivePasses = 1) (hlp : s.lastPlayer = some lp)
    (ha : a.type = PlayActionType.pass) :
    ∃ r, (processPlayAction s a now).1 = Except.ok r ∧
      r.lastPlayedCards = none ∧ r.lastPlayedPattern = none ∧
      r.consecutivePasses = 0 ∧ r.currentPlayer = lp := by
  obtain ⟨pat, hpat⟩ := Option.isSome_iff_exists.mp hpat
  simp only [processPlayAction, hphase, ha, hpat, hcp]
  norm_num
  exact ⟨_, rfl, rfl, rfl, rfl, by simp [hlp]⟩

/-- A concrete mid-trick state used to witness C4: seat 2 made the last
play (a single 9) and seat 0 already passed, so seat 1 is about to make
the second pass. -/
def c4State : GameState where
  gameId := "w4"
  phase := .PLAYING
  player0ModelId := 1
  player1ModelId := 2
  player2ModelId := 3
  hands := ⟨[Card.mk .SPADE .THREE 3], [Card.mk .SPADE .FOUR 4], [Card.mk .SPADE .FIVE 5]⟩
  landlordCards := []
  currentBidder := 0
  highestBid := 1
  highestBidder := some 0
  passCount := 0
  landlordPosition := some 0
  currentPlayer := 1
  lastPlayedCards := some [Card.mk .HEART .NINE 9]
  lastPlayedPattern := some (recognizePattern [Card.mk .HEART .NINE 9])
  lastPlayer := some 2
  consecutivePasses := 1
  roundNumber := 5
  history := []
  winner := none
  winnerType := none
  startedAt := 0
  finishedAt := none

/-- Witness for C4 at `c4State`: the second pass hands the lead back to
seat 2 with the trick cleared. -/
theorem c4_two_passes_close_trick_witness :
    (c4State.phase = GamePhase.PLAYING ∧ c4State.lastPlayedPattern.isSome ∧
      c4State.consecutivePasses = 1 ∧ c4State.lastPlayer = some 2) ∧
    ∃ r, (processPlayAction c4State ⟨.pass, none⟩ 7).1 = Except.ok r ∧
      r.lastPlayedCards = none ∧ r.lastPlayedPattern = none ∧
      r.consecutivePasses = 0 ∧ r.currentPlayer = 2 :=
  ⟨⟨rfl, rfl, rfl, rfl⟩,
    c4_two_passes_close_trick c4State ⟨.pass, none⟩ 7 2 rfl rfl rfl rfl rfl⟩

/-! ### C8 -/

/-- C8: a third bidding pass with no recorded bidder does not re-deal — the
engine deterministically makes seat 0 the landlord at a nominal bid of 1,
enters the playing phase with seat 0 to move, and merges the three
landlord cards (re-sorted) into seat 0's hand, leaving the other two hands
as dealt. -/
theorem c8_no_bid_fallback (s : GameState) (a : BidAction) (now : Nat)
    (hphase : s.phase = GamePhase.BIDDING) (hpc : s.passCount = 2)
    (hhb : s.highestBidder = none) (ha : a.type = BidActionType.pass) :
    ∃ r, (processBidAction s a now).1 = Except.ok r ∧
      r.landlordPosition = some 0 ∧ r.highestBid = 1 ∧ r.highestBidder = some 0 ∧
      r.phase = GamePhase.PLAYING ∧ r.currentPlayer = 0 ∧
      r.hands.player0 = sortCards (s.hands.player0 ++ s.landlordCards) ∧
      r.hands.player1 = s.hands.player1 ∧ r.hands.player2 = s.hands.player2 := by
  simp only [processBidAction, hphase, ha, hpc, hhb, finalizeLandlord,
    getPlayerHand, setPlayerHand]
  norm_num

/-- A concrete bidding state used to witness C8: seats 0 and 1 have already
passed and no one has bid. -/
def c8State : GameState where
  gameId := "w8"
  phase := .BIDDING
  player0ModelId := 1
  player1ModelId := 2
  player2ModelId := 3
  hands := ⟨[Card.mk .SPADE .KING 13], [Card.mk .SPADE .FOUR 4], [Card.mk .SPADE .FIVE 5]⟩
  landlordCards := [Card.mk .HEART .THREE 3, Card.mk .JOKER .SMALL_JOKER 16,
    Card.mk .CLUB .SEVEN 7]
  currentBidder := 2
  highestBid := 0
  highestBidder := none
  passCount := 2
  landlordPosition := none
  currentPlayer := 0
  lastPlayedCards := none
  lastPlayedPattern := none
  lastPlayer := none
  consecutivePasses := 0
  roundNumber := 2
  history := []
  winner := none
  winnerType := none
  startedAt := 0
  finishedAt := none

/-- Witness for C8 at `c8State`: the third pass makes seat 0 landlord at
bid 1 with the landlord cards merged into its hand. -/
theorem c8_no_bid_fallback_witness :
    (c8State.phase = GamePhase.BIDDING ∧ c8State.passCount = 2 ∧
      c8State.highestBidder = none) ∧
    ∃ r, (processBidAction c8State ⟨.pass, none⟩ 9).1 = Except.ok r ∧
      r.landlordPosition = some 0 ∧ r.highestBid = 1 ∧ r.highestBidder = some 0 ∧
      r.phase = GamePhase.PLAYING ∧ r.currentPlayer = 0 ∧
      r.hands.player0 = sortCards (c8State.hands.player0 ++ c8State.landlordCards) ∧
      r.hands.player1 = c8State.hands.player1 ∧
      r.hands.player2 = c8State.hands.player2 :=
  ⟨⟨rfl, rfl, rfl⟩,
    c8_no_bid_fallback c8State ⟨.pass, none⟩ 9 rfl rfl rfl rfl⟩

/-! ### C6 -/

/-- A playing-phase state in which seat 0 is the landlord and still holds
the three landlord-pile cards its hand absorbed at `finalizeLandlord`. -/
def c6StateA : GameState where
  gameId := "g6"
  phase := .PLAYING
  player0ModelId := 1
  player1ModelId := 2
  player2ModelId := 3
  hands := ⟨[Card.mk .SPADE .THREE 3, Card.mk .HEART .THREE 3,
    Card.mk .DIAMOND .THREE 3], [Card.mk .SPADE .FOUR 4], [Card.mk .SPADE .FIVE 5]⟩
  landlordCards := [Card.mk .SPADE .THREE 3, Card.mk .HEART .THREE 3,
    Card.mk .DIAMOND .THREE 3]
  currentBidder := 0
  highestBid := 1
  highestBidder := some 0
  passCount := 0
  landlordPosition := some 0
  currentPlayer := 0
  lastPlayedCards := none
  lastPlayedPattern := none
  lastPlayer := none
  consecutivePasses := 0
  roundNumber := 0
  history := []
  winner := none
  winnerType := none
  startedAt := 0
  finishedAt := none

/-- `c6StateA` with the landlord's three cards (and the pile recording
them) swapped for three different identities of the same count. -/
def c6StateB : GameState :=
  { c6StateA with
    hands := ⟨[Card.mk .SPADE .SIX 6, Card.mk .HEART .SIX 6,
      Card.mk .DIAMOND .SIX 6], [Card.mk .SPADE .FOUR 4], [Card.mk .SPADE .FIVE 5]⟩
    landlordCards := [Card.mk .SPADE .SIX 6, Card.mk .HEART .SIX 6,
      Card.mk .DIAMOND .SIX 6] }

/-- C6 counterexample: during the playing phase `getPublicGameState`
returns `cardsToStrings state.landlordCards` to every seat — three
identified cards of the landlord's hand — so the projection is not a
counts-only redaction of the other seats' cards.  `c6StateA` and
`c6StateB` differ only in the identities (not the counts) of the cards
seat 0 holds (each pile card lies in seat 0's hand in both states, and
seats 1 and 2 are untouched), yet seat 1's projections differ. -/
theorem c6_counterexample :
    c6StateB.hands.player0.length = c6StateA.hands.player0.length ∧
    c6StateB.hands.player1 = c6StateA.hands.player1 ∧
    c6StateB.hands.player2 = c6StateA.hands.player2 ∧
    c6StateB.landlordCards.length = c6StateA.landlordCards.length ∧
    (∀ c ∈ c6StateA.landlordCards, c ∈ c6StateA.hands.player0) ∧
    (∀ c ∈ c6StateB.landlordCards, c ∈ c6StateB.hands.player0) ∧
    getPublicGameState c6StateB 1 ≠ getPublicGameState c6StateA 1 := by
  decide

/-- C6 amended: besides `forSeat`'s full hand, the other seats' hand
counts, the phase/cursor fields and the terminal result, the projection
also exposes the card identities of the landlord pile during the playing
phase (cards that sit in the landlord's hand) and of the last play.
Consequently the projection depends on the other seats' hands only
through their card counts *given the recorded `landlordCards` (and trick
fields) stay fixed*: replacing those hands by any lists of the same
lengths, while keeping `forSeat`'s own hand, yields the identical
projection. -/
theorem c6_public_state_redacts (s : GameState) (forSeat : Fin 3)
    (h0 h1 h2 : List Card)
    (hl0 : h0.length = s.hands.player0.length)
    (hl1 : h1.length = s.hands.player1.length)
    (hl2 : h2.length = s.hands.player2.length)
    (hown : getPlayerHand { s with hands := ⟨h0, h1, h2⟩ } forSeat =
      getPlayerHand s forSeat) :
    getPublicGameState { s with hands := ⟨h0, h1, h2⟩ } forSeat =
      getPublicGameState s forSeat := by
  simp [getPublicGameState, hl0, hl1, hl2, hown]

/-- Witness for C6: seat 0's projection of `c4State` is unchanged when the
other two seats' single cards are swapped for entirely different cards. -/
theorem c6_public_state_redacts_witness :
    ([Card.mk .JOKER .BIG_JOKER 17] : List Card).length = c4State.hands.player1.length ∧
    getPublicGameState
        { c4State with
          hands := ⟨c4State.hands.player0, [Card.mk .JOKER .BIG_JOKER 17],
            [Card.mk .DIAMOND .TWO 15]⟩ } 0 =
      getPublicGameState c4State 0 :=
  ⟨rfl,
    c6_public_state_redacts c4State 0 c4State.hands.player0
      [Card.mk .JOKER .BIG_JOKER 17] [Card.mk .DIAMOND .TWO 15] rfl rfl rfl rfl⟩

/-! ### C3 -/

/-- `finalizeLandlord` either succeeds or leaves the shared hands object
untouched. -/
theorem finalizeLandlord_cases (s : GameState) :
    (∃ r, (finalizeLandlord s).1 = Except.ok r) ∨
      (finalizeLandlord s).2 = s.hands := by
  unfold finalizeLandlord
  cases s.highestBidder with
  | none => right; rfl
  | some p => left; exact ⟨_, rfl⟩

/-- The successful play tail never throws. -/
theorem applyPlay_ok (s : GameState) (cp : Fin 3) (hand cards : List Card)
    (pattern : CardPattern) (now : Nat) :
    ∃ r, (applyPlay s cp hand cards pattern now).1 = Except.ok r := by
  simp only [applyPlay]
  split
  · exact ⟨_, rfl⟩
  · exact ⟨_, rfl⟩

/-- Every `processBidAction` call either succeeds or leaves the shared
hands object untouched: all throws happen before any hand is written. -/
theorem processBidAction_cases (s : GameState) (ab : BidAction) (now : Nat) :
    (∃ r, (processBidAction s ab now).1 = Except.ok r) ∨
      (processBidAction s ab now).2 = s.hands := by
  simp only [processBidAction]
  split
  · right; rfl
  · rcases ab with ⟨ty, amt⟩
    cases ty
    · cases amt with
      | none => right; rfl
      | some a =>
        simp only
        split
        · right; rfl
        · split
          · right; rfl
          · split
            · exact finalizeLandlord_cases _
            · right; rfl
    · simp only
      split
      · exact finalizeLandlord_cases _
      · split
        · exact finalizeLandlord_cases _
        · right; rfl

/-- Every `processPlayAction` call either succeeds or leaves the shared
hands object untouched: all throws happen before any hand is written. -/
theorem processPlayAction_cases (s : GameState) (ap : PlayAction) (now : Nat) :
    (∃ r, (processPlayAction s ap now).1 = Except.ok r) ∨
      (processPlayAction s ap now).2 = s.hands := by
  simp only [processPlayAction]
  split
  · right; rfl
  · rcases ap with ⟨ty, cds⟩
    cases ty
    · cases cds with
      | none => right; rfl
      | some cards =>
        simp only
        split
        · right; rfl
        · split
          · right; rfl
          · split
            · right; rfl
            · split
              · split
                · right; rfl
                · exact Or.inl (applyPlay_ok _ _ _ _ _ _)
              · exact Or.inl (applyPlay_ok _ _ _ _ _ _)
    · simp only
      split
      · right; rfl
      · split
        · left; exact ⟨_, rfl⟩
        · left; exact ⟨_, rfl⟩

/-- C3: when a bid or play action fails with a rule-violation error, the
input state suffers no partial mutation — the state rebuilt from the
post-call contents of the shared hands object (the only channel through
which the engine can reach the input state) is the input state itself,
every field included. -/
theorem c3_error_atomicity (s : GameState) (ab : BidAction) (ap : PlayAction)
    (now : Nat) (e1 e2 : String) :
    ((processBidAction s ab now).1 = Except.error e1 →
      { s with hands := (processBidAction s ab now).2 } = s) ∧
    ((processPlayAction s ap now).1 = Except.error e2 →
      { s with hands := (processPlayAction s ap now).2 } = s) := by
  constructor
  · intro h
    rcases processBidAction_cases s ab now with ⟨r, hr⟩ | hh
    · rw [h] at hr
      simp at hr
    · simp [hh]
  · intro h
    rcases processPlayAction_cases s ap now with ⟨r, hr⟩ | hh
    · rw [h] at hr
      simp at hr
    · simp [hh]

/-- Witness for C3: a bid action in the playing phase and an
empty-hand play in the bidding phase both throw, and both leave the input
state intact. -/
theorem c3_error_atomicity_witness :
    (processBidAction c4State ⟨.bid, some 2⟩ 0).1 = Except.error "Not in bidding phase" ∧
    (processPlayAction c8State ⟨.play, some []⟩ 0).1 = Except.error "Not in playing phase" ∧
    { c4State with hands := (processBidAction c4State ⟨.bid, some 2⟩ 0).2 } = c4State ∧
    { c8State with hands := (processPlayAction c8State ⟨.play, some []⟩ 0).2 } = c8State :=
  ⟨rfl, rfl,
    (c3_error_atomicity c4State ⟨.bid, some 2⟩ ⟨.play, some []⟩ 0
      "Not in bidding phase" "e").1 rfl,
    (c3_error_atomicity c8State ⟨.bid, some 2⟩ ⟨.play, some []⟩ 0
      "e" "Not in playing phase").2 rfl⟩

/-! ### C1 -/

/-- A playing-phase state in which seat 0 holds two cards and is to move.
Feeding it a legal play demonstrates that the engine writes through the
`hands` object shared with the input state. -/
def c1State : GameState where
  gameId := "g1"
  phase := .PLAYING
  player0ModelId := 1
  player1ModelId := 2
  player2ModelId := 3
  hands := ⟨[Card.mk .SPADE .THREE 3, Card.mk .SPADE .FOUR 4],
    [Card.mk .HEART .FOUR 4], [Card.mk .SPADE .FIVE 5]⟩
  landlordCards := []
  currentBidder := 0
  highestBid := 1
  highestBidder := some 0
  passCount := 0
  landlordPosition := some 0
  currentPlayer := 0
  lastPlayedCards := none
  lastPlayedPattern := none
  lastPlayer := none
  consecutivePasses := 0
  roundNumber := 0
  history := []
  winner := none
  winnerType := none
  startedAt := 0
  finishedAt := none

/-- C1 (code bug): a successful `processPlayAction` call mutates the input
state.  At `c1State`, playing the single ♠3 succeeds, yet the contents of
the `hands` object shared with the input state change — the input state's
`hands.player0` no longer equals its pre-call value, contradicting the
claimed purity (the returned state also shares this mutable `hands`
structure with the input). -/
theorem c1_input_state_mutated :
    (processPlayAction c1State ⟨.play, some [Card.mk .SPADE .THREE 3]⟩ 0).1.isOk = true ∧
    (processPlayAction c1State ⟨.play, some [Card.mk .SPADE .THREE 3]⟩ 0).2 ≠
      c1State.hands := by
  constructor
  · rfl
  · decide
/-! ### C7 -/

/-- Sortedness by ascending value with a fixed suit tie-break: `suitRank`
assigns each suit its place in the (unspecified) tie-break order; the
claim would make each dealt sequence sorted in this sense for some such
assignment. -/
def tieBreakSorted (suitRank : Suit → Fin 5) : List Card → Bool
  | [] => true
  | [_] => true
  | a :: b :: l =>
    (decide (a.value < b.value) ||
      (decide (a.value = b.value) && decide (suitRank a.suit < suitRank b.suit))) &&
    tieBreakSorted suitRank (b :: l)

/-- A permutation of the 54-card deck whose first seventeen cards put ♥3
before ♠3 but ♠4 before ♥4: the stable sort keeps both orders, so no suit
tie-break describes the dealt hand. -/
def deckB : List Card :=
  [Card.mk .HEART .THREE 3, Card.mk .SPADE .THREE 3,
   Card.mk .SPADE .FOUR 4, Card.mk .HEART .FOUR 4] ++
  createDeck.filter (fun c =>
    c ∉ [Card.mk .HEART .THREE 3, Card.mk .SPADE .THREE 3,
         Card.mk .SPADE .FOUR 4, Card.mk .HEART .FOUR 4])

/-- C7 counterexample: `deckB` is a permutation of the standard deck, yet
the hand dealt from it starts ♥3, ♠3, ♠4, ♥4 — the two value-ties are
ordered by opposite suit orders (the stable sort keeps the shuffle order),
so the hand is not sorted "ascending by value with suit as the tie-break"
for any tie-break order on suits. -/
theorem c7_counterexample :
    List.Perm deckB createDeck ∧
    (dealCardsWith deckB).player0.take 4 =
      [Card.mk .HEART .THREE 3, Card.mk .SPADE .THREE 3,
       Card.mk .SPADE .FOUR 4, Card.mk .HEART .FOUR 4] ∧
    ¬ ∃ suitRank : Suit → Fin 5,
        tieBreakSorted suitRank (dealCardsWith deckB).player0 = true := by
  refine ⟨by decide, by decide, ?_⟩
  rintro ⟨sr, hsr⟩
  have hout : (dealCardsWith deckB).player0 =
      [Card.mk .HEART .THREE 3, Card.mk .SPADE .THREE 3,
       Card.mk .SPADE .FOUR 4, Card.mk .HEART .FOUR 4,
       Card.mk .SPADE .FIVE 5, Card.mk .HEART .FIVE 5,
       Card.mk .SPADE .SIX 6, Card.mk .HEART .SIX 6,
       Card.mk .SPADE .SEVEN 7, Card.mk .SPADE .EIGHT 8,
       Card.mk .SPADE .NINE 9, Card.mk .SPADE .TEN 10,
       Card.mk .SPADE .JACK 11, Card.mk .SPADE .QUEEN 12,
       Card.mk .SPADE .KING 13, Card.mk .SPADE .ACE 14,
       Card.mk .SPADE .TWO 15] := by decide
  rw [hout] at hsr
  simp only [tieBreakSorted, Bool.and_eq_true, Bool.or_eq_true,
    decide_eq_true_eq] at hsr
  norm_num at hsr
  exact absurd hsr.2 (not_lt.mpr (le_of_lt hsr.1))


/-- C7 amended: dealing any permutation of the standard deck yields three
17-card hands and a 3-card landlord pile whose union is exactly the 54
distinct cards of the deck (no duplicates, no omissions), each of the four
sequences sorted ascending by card value — ties between equal-value cards
keep the shuffle order (stable sort), with no suit tie-break. -/
theorem c7_deal_partition (deck : List Card) (h : deck.Perm createDeck) :
    ((dealCardsWith deck).player0.length = 17 ∧
      (dealCardsWith deck).player1.length = 17 ∧
      (dealCardsWith deck).player2.length = 17 ∧
      (dealCardsWith deck).landlordCards.length = 3) ∧
    ((dealCardsWith deck).player0 ++ (dealCardsWith deck).player1 ++
      (dealCardsWith deck).player2 ++ (dealCardsWith deck).landlordCards).Perm
      createDeck ∧
    ((dealCardsWith deck).player0 ++ (dealCardsWith deck).player1 ++
      (dealCardsWith deck).player2 ++ (dealCardsWith deck).landlordCards).Nodup ∧
    List.Sorted cardLe (dealCardsWith deck).player0 ∧
    List.Sorted cardLe (dealCardsWith deck).player1 ∧
    List.Sorted cardLe (dealCardsWith deck).player2 ∧
    List.Sorted cardLe (dealCardsWith deck).landlordCards := by
  have hlen : deck.length = 54 := h.length_eq.trans (by decide)
  have hsplit : deck.take 17 ++ ((deck.drop 17).take 17 ++
      ((deck.drop 34).take 17 ++ (deck.drop 51).take 3)) = deck := by
    have h3 : (deck.drop 51).take 3 = deck.drop 51 :=
      List.take_of_length_le (by simp [hlen])
    rw [h3]
    rw [List.drop_take_append_drop, List.drop_take_append_drop,
      List.take_append_drop]
  have hperm : ((dealCardsWith deck).player0 ++ (dealCardsWith deck).player1 ++
      (dealCardsWith deck).player2 ++ (dealCardsWith deck).landlordCards).Perm
      createDeck := by
    have p0 := List.perm_insertionSort cardLe (deck.take 17)
    have p1 := List.perm_insertionSort cardLe ((deck.drop 17).take 17)
    have p2 := List.perm_insertionSort cardLe ((deck.drop 34).take 17)
    have p3 := List.perm_insertionSort cardLe ((deck.drop 51).take 3)
    have step1 : ((dealCardsWith deck).player0 ++ (dealCardsWith deck).player1 ++
        (dealCardsWith deck).player2 ++ (dealCardsWith deck).landlordCards).Perm
        (deck.take 17 ++ ((deck.drop 17).take 17 ++
          ((deck.drop 34).take 17 ++ (deck.drop 51).take 3))) := by
      simpa [dealCardsWith, sortCards, List.append_assoc] using
        p0.append (p1.append (p2.append p3))
    have step2 : (deck.take 17 ++ ((deck.drop 17).take 17 ++
        ((deck.drop 34).take 17 ++ (deck.drop 51).take 3))).Perm createDeck := by
      rw [hsplit]
      exact h
    exact step1.trans step2
  refine ⟨⟨?_, ?_, ?_, ?_⟩, hperm, ?_, ?_, ?_, ?_, ?_⟩
  · simp [dealCardsWith, sortCards, List.length_insertionSort, List.length_take, hlen]
  · simp [dealCardsWith, sortCards, List.length_insertionSort, List.length_take,
      List.length_drop, hlen]
  · simp [dealCardsWith, sortCards, List.length_insertionSort, List.length_take,
      List.length_drop, hlen]
  · simp [dealCardsWith, sortCards, List.length_insertionSort, List.length_take,
      List.length_drop, hlen]
  · exact hperm.nodup_iff.mpr (by decide)
  · exact List.sorted_insertionSort cardLe _
  · exact List.sorted_insertionSort cardLe _
  · exact List.sorted_insertionSort cardLe _
  · exact List.sorted_insertionSort cardLe _

/-- Witness for C7's amended theorem at the identity shuffle. -/
theorem c7_deal_partition_witness :
    List.Perm createDeck createDeck ∧
      (dealCardsWith createDeck).player0.length = 17 ∧
      ((dealCardsWith createDeck).player0 ++ (dealCardsWith createDeck).player1 ++
        (dealCardsWith createDeck).player2 ++
        (dealCardsWith createDeck).landlordCards).Perm createDeck :=
  ⟨List.Perm.refl _, (c7_deal_partition createDeck (List.Perm.refl _)).1.1,
    (c7_deal_partition createDeck (List.Perm.refl _)).2.1⟩

/-! ### C9

The straight-recognition claim needs a characterization of the `Map`
embedding (`mapGet`/`mapSet`), of `countCards`, and of the sorted
distinct-value list used by `recognizePattern`. -/

theorem mapUpd_keys (m : List (Nat × Nat)) (k v : Nat) :
    (m.map (fun p => if p.1 = k then (k, v) else p)).map Prod.fst =
      m.map Prod.fst := by
  induction m with
  | nil => rfl
  | cons p t ih =>
    by_cases hp : p.1 = k <;> simp [hp, ih]

theorem mapHasKey_iff (m : List (Nat × Nat)) (k : Nat) :
    mapHasKey m k = true ↔ k ∈ m.map Prod.fst := by
  induction m with
  | nil => simp [mapHasKey]
  | cons p t ih =>
    simp only [mapHasKey, Bool.or_eq_true, decide_eq_true_eq, ih,
      List.map_cons, List.mem_cons]
    exact or_congr eq_comm Iff.rfl

theorem mapGet_mapUpd_self (m : List (Nat × Nat)) (k v : Nat)
    (h : mapHasKey m k = true) :
    mapGet (m.map (fun p => if p.1 = k then (k, v) else p)) k = v := by
  induction m with
  | nil => simp [mapHasKey] at h
  | cons p t ih =>
    by_cases hp : p.1 = k
    · rw [List.map_cons, if_pos hp]
      simp [mapGet]
    · have ht : mapHasKey t k = true := by
        simpa [mapHasKey, hp] using h
      rw [List.map_cons, if_neg hp]
      rw [mapGet, if_neg hp]
      exact ih ht

theorem mapGet_mapUpd_ne (m : List (Nat × Nat)) (k k2 v : Nat) (hne : k2 ≠ k) :
    mapGet (m.map (fun p => if p.1 = k then (k, v) else p)) k2 = mapGet m k2 := by
  induction m with
  | nil => rfl
  | cons p t ih =>
    by_cases hp : p.1 = k
    · have hp2 : p.1 ≠ k2 := by rw [hp]; exact Ne.symm hne
      rw [List.map_cons, if_pos hp]
      rw [mapGet, if_neg (by simpa using Ne.symm hne)]
      rw [mapGet, if_neg hp2]
      exact ih
    · rw [List.map_cons, if_neg hp]
      by_cases hp2 : p.1 = k2
      · rw [mapGet, if_pos hp2, mapGet, if_pos hp2]
      · rw [mapGet, if_neg hp2, mapGet, if_neg hp2]
        exact ih

theorem mapGet_appendOne_self (m : List (Nat × Nat)) (k v : Nat)
    (h : mapHasKey m k = false) :
    mapGet (m ++ [(k, v)]) k = v := by
  induction m with
  | nil => simp [mapGet]
  | cons p t ih =>
    have hp : p.1 ≠ k := by
      intro hcon
      simp [mapHasKey, hcon] at h
    have ht : mapHasKey t k = false := by
      simpa [mapHasKey, hp] using h
    rw [List.cons_append, mapGet, if_neg hp]
    exact ih ht

theorem mapGet_appendOne_ne (m : List (Nat × Nat)) (k k2 v : Nat) (hne : k2 ≠ k) :
    mapGet (m ++ [(k, v)]) k2 = mapGet m k2 := by
  induction m with
  | nil => simp [mapGet, Ne.symm hne]
  | cons p t ih =>
    by_cases hp : p.1 = k2
    · rw [List.cons_append, mapGet, if_pos hp, mapGet, if_pos hp]
    · rw [List.cons_append, mapGet, if_neg hp, mapGet, if_neg hp]
      exact ih

theorem mapGet_mapSet_self (m : List (Nat × Nat)) (k v : Nat) :
    mapGet (mapSet m k v) k = v := by
  unfold mapSet
  split
  case isTrue h => exact mapGet_mapUpd_self m k v h
  case isFalse h => exact mapGet_appendOne_self m k v (by simpa using h)

theorem mapGet_mapSet_ne (m : List (Nat × Nat)) (k k2 v : Nat) (hne : k2 ≠ k) :
    mapGet (mapSet m k v) k2 = mapGet m k2 := by
  unfold mapSet
  split
  · exact mapGet_mapUpd_ne m k k2 v hne
  · exact mapGet_appendOne_ne m k k2 v hne

theorem mapSet_keys (m : List (Nat × Nat)) (k v : Nat) :
    (mapSet m k v).map Prod.fst =
      if mapHasKey m k = true then m.map Prod.fst else m.map Prod.fst ++ [k] := by
  unfold mapSet
  split
  case isTrue h => exact mapUpd_keys m k v
  case isFalse h => simp

theorem countCards_fold (cards : List Card) :
    ∀ m : List (Nat × Nat), (m.map Prod.fst).Nodup →
      (((cards.foldl
          (fun counts c => mapSet counts c.value (mapGet counts c.value + 1))
          m).map Prod.fst).Nodup ∧
       (∀ k, k ∈ (cards.foldl
          (fun counts c => mapSet counts c.value (mapGet counts c.value + 1))
          m).map Prod.fst ↔ k ∈ m.map Prod.fst ∨ k ∈ cards.map Card.value) ∧
       (∀ k, mapGet (cards.foldl
          (fun counts c => mapSet counts c.value (mapGet counts c.value + 1))
          m) k = mapGet m k + (cards.map Card.value).count k)) := by
  induction cards with
  | nil =>
    intro m hm
    refine ⟨hm, fun k => by simp, fun k => by simp⟩
  | cons c cards ih =>
    intro m hm
    have hstepkeys := mapSet_keys m c.value (mapGet m c.value + 1)
    have hstepnodup :
        (((mapSet m c.value (mapGet m c.value + 1)).map Prod.fst)).Nodup := by
      rw [hstepkeys]
      split
      · exact hm
      case isFalse h =>
        have : c.value ∉ m.map Prod.fst := fun hc =>
          h ((mapHasKey_iff m c.value).mpr hc)
        simp [List.nodup_append, hm, this]
    obtain ⟨ihn, ihm, ihc⟩ := ih (mapSet m c.value (mapGet m c.value + 1)) hstepnodup
    refine ⟨by simpa using ihn, fun k => ?_, fun k => ?_⟩
    · rw [List.foldl_cons]
      rw [ihm k, hstepkeys]
      split
      case isTrue h =>
        have hc : c.value ∈ m.map Prod.fst := (mapHasKey_iff m c.value).mp h
        simp only [List.map_cons, List.mem_cons]
        constructor
        · rintro hk
          rcases hk with hk | hk
          · exact Or.inl hk
          · exact Or.inr (Or.inr hk)
        · rintro (hk | hk | hk)
          · exact Or.inl hk
          · exact Or.inl (hk ▸ hc)
          · exact Or.inr hk
      case isFalse h =>
        simp only [List.mem_append, List.mem_singleton, List.map_cons,
          List.mem_cons]
        tauto
    · rw [List.foldl_cons]
      rw [ihc k]
      by_cases hk : k = c.value
      · subst hk
        rw [mapGet_mapSet_self]
        simp [List.count_cons]
        omega
      · rw [mapGet_mapSet_ne m c.value k _ hk]
        simp [List.count_cons, Ne.symm hk]

theorem countCards_keys_nodup (cards : List Card) :
    ((countCards cards).map Prod.fst).Nodup :=
  (countCards_fold cards [] (by simp)).1

theorem countCards_mem_keys (cards : List Card) (k : Nat) :
    k ∈ (countCards cards).map Prod.fst ↔ k ∈ cards.map Card.value := by
  have := (countCards_fold cards [] (by simp)).2.1 k
  simpa [countCards] using this

theorem countCards_mapGet (cards : List Card) (k : Nat) :
    mapGet (countCards cards) k = (cards.map Card.value).count k := by
  have := (countCards_fold cards [] (by simp)).2.2 k
  simpa [countCards, mapGet] using this

theorem rankValues_injective : Function.Injective rankValues := by
  intro a b h
  cases a <;> cases b <;> simp_all [rankValues]

theorem sortCards_values_perm (cards : List Card) :
    ((sortCards cards).map Card.value).Perm (cards.map Card.value) :=
  (List.perm_insertionSort cardLe cards).map Card.value

def patternUniqueValues (cards : List Card) : List Nat :=
  List.insertionSort (· ≤ ·) ((countCards (sortCards cards)).map Prod.fst)

theorem patternUniqueValues_perm_keys (cards : List Card) :
    (patternUniqueValues cards).Perm
      ((countCards (sortCards cards)).map Prod.fst) :=
  List.perm_insertionSort _ _

theorem patternUniqueValues_sorted (cards : List Card) :
    List.Sorted (· ≤ ·) (patternUniqueValues cards) :=
  List.sorted_insertionSort _ _

theorem patternUniqueValues_nodup (cards : List Card) :
    (patternUniqueValues cards).Nodup :=
  ((patternUniqueValues_perm_keys cards).nodup_iff).mpr
    (countCards_keys_nodup (sortCards cards))

theorem patternUniqueValues_mem (cards : List Card) (k : Nat) :
    k ∈ patternUniqueValues cards ↔ k ∈ cards.map Card.value := by
  rw [(patternUniqueValues_perm_keys cards).mem_iff,
    countCards_mem_keys (sortCards cards) k,
    (sortCards_values_perm cards).mem_iff]

theorem patternCounts_mapGet (cards : List Card) (k : Nat) :
    mapGet (countCards (sortCards cards)) k = (cards.map Card.value).count k := by
  rw [countCards_mapGet (sortCards cards) k,
    (sortCards_values_perm cards).count_eq]

theorem patternUniqueValues_eq_of_nodup (cards : List Card)
    (h : (cards.map Card.value).Nodup) :
    patternUniqueValues cards =
      List.insertionSort (· ≤ ·) (cards.map Card.value) := by
  have hkeys : (((countCards (sortCards cards)).map Prod.fst)).Perm
      (cards.map Card.value) := by
    rw [List.perm_ext_iff_of_nodup (countCards_keys_nodup _) h]
    intro a
    rw [countCards_mem_keys (sortCards cards) a,
      (sortCards_values_perm cards).mem_iff]
  have hperm : (patternUniqueValues cards).Perm
      (List.insertionSort (· ≤ ·) (cards.map Card.value)) :=
    ((patternUniqueValues_perm_keys cards).trans hkeys).trans
      (List.perm_insertionSort _ _).symm
  exact List.eq_of_perm_of_sorted hperm (patternUniqueValues_sorted cards)
    (List.sorted_insertionSort _ _)

theorem patternUniqueValues_length_of_nodup (cards : List Card)
    (h : (cards.map Card.value).Nodup) :
    (patternUniqueValues cards).length = cards.length := by
  rw [patternUniqueValues_eq_of_nodup cards h, List.length_insertionSort,
    List.length_map]

theorem sorted_headD_le (l : List Nat) (h : List.Sorted (· ≤ ·) l) (x : Nat)
    (hx : x ∈ l) : l.headD 0 ≤ x := by
  cases l with
  | nil => cases hx
  | cons a t =>
    rcases List.mem_cons.mp hx with rfl | hx
    · exact Nat.le_refl _
    · exact List.rel_of_sorted_cons h x hx

theorem headD_mem (l : List Nat) (h : l ≠ []) : l.headD 0 ∈ l := by
  cases l with
  | nil => exact absurd rfl h
  | cons a t => exact List.mem_cons_self a t

theorem recognizePattern_straight_eval (cards : List Card) (mv len : Nat)
    (hne : cards.length ≠ 0)
    (hrocket : isRocket (sortCards cards) = false)
    (hbomb : isBomb (countCards (sortCards cards)) = false)
    (h1 : cards.length ≠ 1)
    (hpair : isPair (countCards (sortCards cards)) = false)
    (htrio : isTrio (countCards (sortCards cards)) = false)
    (hts : isTrioSingle (countCards (sortCards cards)) = false)
    (htp : isTrioPair (countCards (sortCards cards)) = false)
    (hstraight : isStraight (patternUniqueValues cards)
      (countCards (sortCards cards)) = some (mv, len)) :
    recognizePattern cards =
      ⟨CardType.STRAIGHT, mv, len, sortCards cards⟩ := by
  have hstraight2 : isStraight
      (List.insertionSort (· ≤ ·) ((countCards (sortCards cards)).map Prod.fst))
      (countCards (sortCards cards)) = some (mv, len) := hstraight
  simp only [recognizePattern, if_neg hne, hrocket, hbomb, if_neg h1, hpair,
    htrio, hts, htp, Bool.false_eq_true, if_false, hstraight2]

theorem recognizePattern_straight_inv (cards : List Card)
    (hT : (recognizePattern cards).type = CardType.STRAIGHT) :
    ∃ mv len,
      isStraight (patternUniqueValues cards) (countCards (sortCards cards)) =
        some (mv, len) ∧
      recognizePattern cards =
        ⟨CardType.STRAIGHT, mv, len, sortCards cards⟩ := by
  by_cases hne : cards.length = 0
  · simp [recognizePattern, hne] at hT
  by_cases hrocket : isRocket (sortCards cards) = true
  · simp [recognizePattern, hne, hrocket] at hT
  by_cases hbomb : isBomb (countCards (sortCards cards)) = true
  · simp [recognizePattern, hne, hrocket, hbomb] at hT
  by_cases h1 : cards.length = 1
  · simp [recognizePattern, hne, hrocket, hbomb, h1] at hT
  by_cases hpair : isPair (countCards (sortCards cards)) = true
  · simp [recognizePattern, hne, hrocket, hbomb, h1, hpair] at hT
  by_cases htrio : isTrio (countCards (sortCards cards)) = true
  · simp [recognizePattern, hne, hrocket, hbomb, h1, hpair, htrio] at hT
  by_cases hts : isTrioSingle (countCards (sortCards cards)) = true
  · simp [recognizePattern, hne, hrocket, hbomb, h1, hpair, htrio, hts] at hT
  by_cases htp : isTrioPair (countCards (sortCards cards)) = true
  · simp [recognizePattern, hne, hrocket, hbomb, h1, hpair, htrio, hts, htp] at hT
  rcases hstraight : isStraight
      (List.insertionSort (· ≤ ·) ((countCards (sortCards cards)).map Prod.fst))
      (countCards (sortCards cards)) with - | ⟨mv, len⟩
  · simp only [recognizePattern, if_neg hne] at hT
    simp only [hrocket, hbomb, h1, hpair, htrio, hts, htp, Bool.false_eq_true,
      if_false, hstraight, if_neg h1] at hT
    repeat' split at hT
    all_goals simp at hT
  · refine ⟨mv, len, hstraight, ?_⟩
    exact recognizePattern_straight_eval cards mv len hne
      (by simpa using hrocket) (by simpa using hbomb) h1
      (by simpa using hpair) (by simpa using htrio)
      (by simpa using hts) (by simpa using htp) hstraight

theorem isRocket_of_length_ne_two (l : List Card) (h : l.length ≠ 2) :
    isRocket l = false := by
  match l with
  | [] => rfl
  | [a] => rfl
  | [a, b] => exact absurd rfl h
  | a :: b :: c :: t => rfl

theorem isStraight_some_iff (u : List Nat) (counts : List (Nat × Nat))
    (mv len : Nat) :
    isStraight u counts = some (mv, len) ↔
      5 ≤ u.length ∧ (∀ v ∈ u, v < 15) ∧ (∀ v ∈ u, mapGet counts v = 1) ∧
      consecB u = true ∧ mv = u.headD 0 ∧ len = u.length := by
  unfold isStraight
  split_ifs with h1 h2 h3 h4
  · constructor
    · intro h; exact absurd h (by simp)
    · rintro ⟨h5, -⟩; omega
  · constructor
    · intro h; exact absurd h (by simp)
    · rintro ⟨-, hall, -⟩
      rw [List.any_eq_true] at h2
      obtain ⟨v, hv, h15⟩ := h2
      exact absurd (hall v hv) (Nat.not_lt.mpr (by simpa using h15))
  · constructor
    · intro h; exact absurd h (by simp)
    · rintro ⟨-, -, hall, -⟩
      rw [List.any_eq_true] at h3
      obtain ⟨v, hv, hv1⟩ := h3
      exact absurd (hall v hv) (by simpa using hv1)
  · constructor
    · intro h
      injection h with h2'
      rw [Prod.mk.injEq] at h2'
      refine ⟨by omega, ?_, ?_, h4, h2'.1.symm, h2'.2.symm⟩
      · intro v hv
        rw [List.any_eq_true] at h2
        push_neg at h2
        simpa using h2 v hv
      · intro v hv
        rw [List.any_eq_true] at h3
        push_neg at h3
        simpa using h3 v hv
    · rintro ⟨-, -, -, -, rfl, rfl⟩
      rfl
  · constructor
    · intro h; exact absurd h (by simp)
    · rintro ⟨-, -, -, hc, -⟩
      exact absurd hc (by simpa using h4)

/-- The straight shape as the specification words it: at least five cards,
all ranks distinct singles, strictly consecutive in value once sorted, and
no value at or above 15 (no 2s, no jokers). -/
def straightSpec (cards : List Card) : Prop :=
  5 ≤ cards.length ∧
  (cards.map Card.rank).Nodup ∧
  (∀ c ∈ cards, c.value < 15) ∧
  consecB (List.insertionSort (· ≤ ·) (cards.map Card.value)) = true

instance (cards : List Card) : Decidable (straightSpec cards) := by
  unfold straightSpec
  infer_instance

theorem isBomb_eq_false_of (counts : List (Nat × Nat)) (h : counts.length ≠ 1) :
    isBomb counts = false := by
  unfold isBomb
  exact decide_eq_false (fun hc => h hc.1)

theorem isPair_eq_false_of (counts : List (Nat × Nat)) (h : counts.length ≠ 1) :
    isPair counts = false := by
  unfold isPair
  exact decide_eq_false (fun hc => h hc.1)

theorem isTrio_eq_false_of (counts : List (Nat × Nat)) (h : counts.length ≠ 1) :
    isTrio counts = false := by
  unfold isTrio
  exact decide_eq_false (fun hc => h hc.1)

theorem isTrioSingle_eq_false_of (counts : List (Nat × Nat))
    (h : counts.length ≠ 2) : isTrioSingle counts = false := by
  unfold isTrioSingle
  simp [h]

theorem isTrioPair_eq_false_of (counts : List (Nat × Nat))
    (h : counts.length ≠ 2) : isTrioPair counts = false := by
  unfold isTrioPair
  simp [h]

theorem countCards_length_eq (cards : List Card)
    (h : (cards.map Card.value).Nodup) :
    (countCards (sortCards cards)).length = cards.length := by
  have h1 : ((countCards (sortCards cards)).map Prod.fst).length =
      (patternUniqueValues cards).length :=
    (patternUniqueValues_perm_keys cards).length_eq.symm
  rw [List.length_map] at h1
  rw [h1, patternUniqueValues_length_of_nodup cards h]

/-- C9: for well-formed cards (each card's cached value is its rank's
value, as every card the program constructs satisfies),
`recognizePattern` classifies a card list as STRAIGHT exactly when it
meets `straightSpec` — at least five cards, all ranks distinct singles,
strictly consecutive, all below 15 — and in that case the pattern's value
is the lowest card value present and its length is the card count. -/
theorem c9_straight_recognition (cards : List Card)
    (hwf : ∀ c ∈ cards, c.value = rankValues c.rank) :
    ((recognizePattern cards).type = CardType.STRAIGHT ↔ straightSpec cards) ∧
    ((recognizePattern cards).type = CardType.STRAIGHT →
      (recognizePattern cards).value ∈ cards.map Card.value ∧
      (∀ c ∈ cards, (recognizePattern cards).value ≤ c.value) ∧
      (recognizePattern cards).length = cards.length) := by
  have hvals : cards.map Card.value = (cards.map Card.rank).map rankValues := by
    rw [List.map_map]
    exact List.map_congr_left hwf
  constructor
  · constructor
    · intro hT
      obtain ⟨mv, len, hstraight, heq⟩ := recognizePattern_straight_inv cards hT
      rw [isStraight_some_iff] at hstraight
      obtain ⟨h5, h15, hcnt1, hconsec, hmv, hlen⟩ := hstraight
      have hvnodup : (cards.map Card.value).Nodup := by
        rw [List.nodup_iff_count_le_one]
        intro k
        by_cases hk : k ∈ cards.map Card.value
        · have hk2 : k ∈ patternUniqueValues cards :=
            (patternUniqueValues_mem cards k).mpr hk
          have := hcnt1 k hk2
          rw [patternCounts_mapGet] at this
          omega
        · rw [List.count_eq_zero_of_not_mem hk]
          omega
      have hulen := patternUniqueValues_length_of_nodup cards hvnodup
      have hueq := patternUniqueValues_eq_of_nodup cards hvnodup
      refine ⟨by omega, ?_, ?_, ?_⟩
      · rw [hvals] at hvnodup
        exact hvnodup.of_map
      · intro c hc
        exact h15 c.value ((patternUniqueValues_mem cards c.value).mpr
          (List.mem_map_of_mem Card.value hc))
      · rw [← hueq]
        exact hconsec
    · rintro ⟨hs5, hsrnodup, hs15, hsconsec⟩
      have hvnodup : (cards.map Card.value).Nodup := by
        rw [hvals]
        exact (List.nodup_map_iff rankValues_injective).mpr hsrnodup
      have hulen := patternUniqueValues_length_of_nodup cards hvnodup
      have hueq := patternUniqueValues_eq_of_nodup cards hvnodup
      have hcntlen := countCards_length_eq cards hvnodup
      have hstraight : isStraight (patternUniqueValues cards)
          (countCards (sortCards cards)) =
          some ((patternUniqueValues cards).headD 0,
            (patternUniqueValues cards).length) := by
        rw [isStraight_some_iff]
        refine ⟨by omega, ?_, ?_, by rw [hueq]; exact hsconsec, rfl, rfl⟩
        · intro v hv
          obtain ⟨c, hc, rfl⟩ := List.mem_map.mp
            ((patternUniqueValues_mem cards v).mp hv)
          exact hs15 c hc
        · intro v hv
          rw [patternCounts_mapGet]
          exact List.count_eq_one_of_mem hvnodup
            ((patternUniqueValues_mem cards v).mp hv)
      have heval := recognizePattern_straight_eval cards _ _
        (by omega)
        (isRocket_of_length_ne_two _ (by
          rw [sortCards, List.length_insertionSort]
          omega))
        (isBomb_eq_false_of _ (by omega))
        (by omega)
        (isPair_eq_false_of _ (by omega))
        (isTrio_eq_false_of _ (by omega))
        (isTrioSingle_eq_false_of _ (by omega))
        (isTrioPair_eq_false_of _ (by omega))
        hstraight
      rw [heval]
  · intro hT
    obtain ⟨mv, len, hstraight, heq⟩ := recognizePattern_straight_inv cards hT
    rw [isStraight_some_iff] at hstraight
    obtain ⟨h5, h15, hcnt1, hconsec, hmv, hlen⟩ := hstraight
    have hvnodup : (cards.map Card.value).Nodup := by
      rw [List.nodup_iff_count_le_one]
      intro k
      by_cases hk : k ∈ cards.map Card.value
      · have hk2 : k ∈ patternUniqueValues cards :=
          (patternUniqueValues_mem cards k).mpr hk
        have := hcnt1 k hk2
        rw [patternCounts_mapGet] at this
        omega
      · rw [List.count_eq_zero_of_not_mem hk]
        omega
    have hulen := patternUniqueValues_length_of_nodup cards hvnodup
    have hune : patternUniqueValues cards ≠ [] := by
      intro hcon
      rw [hcon] at h5
      simp at h5
    have hhead : (patternUniqueValues cards).headD 0 ∈ patternUniqueValues cards :=
      headD_mem _ hune
    refine ⟨?_, ?_, ?_⟩
    · rw [heq]
      simp only [hmv]
      exact (patternUniqueValues_mem cards _).mp hhead
    · intro c hc
      rw [heq]
      simp only [hmv]
      exact sorted_headD_le _ (patternUniqueValues_sorted cards) c.value
        ((patternUniqueValues_mem cards c.value).mpr
          (List.mem_map_of_mem Card.value hc))
    · rw [heq]
      simp only [hlen]
      exact hulen

/-- Witness for C9 at the specification's own example ♠3 ♥4 ♦5 ♣6 ♠7. -/
theorem c9_straight_recognition_witness :
    (∀ c ∈ ([Card.mk .SPADE .THREE 3, Card.mk .HEART .FOUR 4,
        Card.mk .DIAMOND .FIVE 5, Card.mk .CLUB .SIX 6,
        Card.mk .SPADE .SEVEN 7] : List Card),
      c.value = rankValues c.rank) ∧
    (recognizePattern [Card.mk .SPADE .THREE 3, Card.mk .HEART .FOUR 4,
        Card.mk .DIAMOND .FIVE 5, Card.mk .CLUB .SIX 6,
        Card.mk .SPADE .SEVEN 7]).type = CardType.STRAIGHT :=
  ⟨by decide,
    (c9_straight_recognition _ (by decide)).1.mpr (by decide)⟩
